import Mathlib

/-!
Verification of the UI-side logic of yt-spout-syphon-bridge.

Shallow embedding of the TypeScript frontend sources:
* `src/hooks/usePlayer.ts` — the `usePlayer` hook (status state, `play`,
  `stop`, `pause`, `setAudioDevice`, `setVolume`, `getAudioDevices`);
* `src/components/PreviewCanvas.tsx` — the `preview-frame` listener with
  its RGB→RGBA vertical-flip conversion loop;
* `src/components/PlayerControls.tsx` — `handleSpeedChange`;
* `src/components/AudioDeviceSelector.tsx` — `handleMuteToggle` and the
  volume/mute/selection component state;
* `src/App.tsx` — `handlePlay`.

JavaScript numbers are modelled as rationals (`ℚ`), JS strings as Lean
`String` (or `List Char` where character-level reasoning is needed), and
typed arrays as `List Nat` with the typed-array store semantics: an
out-of-range store is discarded (`List.set` is the identity out of
range, as in JS), an out-of-range read yields `undefined`, which a
`Uint8ClampedArray` stores as 0 (`List.getD _ 0`), and stored values are
clamped to 0–255.  A rejected `invoke` promise carries an arbitrary
JavaScript value, modelled by `JsValue` together with JS `String(·)`
coercion.
-/

-- ════════════════════════════════════════════════════════════════════════════
-- Definitions
-- ════════════════════════════════════════════════════════════════════════════

/-- A JavaScript value as it can appear as a promise rejection reason. -/
inductive JsValue where
  | undef : JsValue
  | nullv : JsValue
  | boolv (b : Bool) : JsValue
  | numv (n : Int) : JsValue
  | strv (s : String) : JsValue
  | errObj (nm msg : String) : JsValue
deriving DecidableEq

/-- JS `String(x)` on a rejection value (`Error` stringifies as
`name: message`, or just `name` when the message is empty). -/
def jsToString : JsValue → String
  | .undef => "undefined"
  | .nullv => "null"
  | .boolv true => "true"
  | .boolv false => "false"
  | .numv n => toString n
  | .strv s => s
  | .errObj nm msg => if msg = "" then nm else nm ++ ": " ++ msg

/-- `PlayerStatus` of `src/hooks/usePlayer.ts` (lines 7–13).  The
TypeScript union type on `status` is an erased annotation: at runtime the
field holds whatever string was stored, so it is modelled as `String`. -/
structure PlayerStatus where
  status : String
  url : Option String := none
  error : Option String := none
  spout_active : Bool
  syphon_active : Bool
deriving DecidableEq

/-- Initial `useState` value of the hook (usePlayer.ts lines 23–27). -/
def initialStatus : PlayerStatus :=
  { status := "idle", spout_active := false, syphon_active := false }

/-- One state-affecting occurrence in the `usePlayer` hook: a
`player-status` event, or the settlement (fulfilled/rejected) of one of
the `invoke` calls made by the hook's callbacks. -/
inductive HookEvent where
  | statusEvent (payload : String) : HookEvent
  | playOk (result : PlayerStatus) : HookEvent
  | playErr (e : JsValue) : HookEvent
  | stopOk (result : PlayerStatus) : HookEvent
  | stopErr (e : JsValue) : HookEvent
  | pauseOk (result : PlayerStatus) : HookEvent
  | pauseErr (e : JsValue) : HookEvent
  | setAudioDeviceDone (deviceId : String) (ok : Bool) : HookEvent
  | setVolumeDone (volume : Int) (ok : Bool) : HookEvent

/-- State update the `usePlayer` hook performs for each event, translated
clause by clause from `src/hooks/usePlayer.ts`:
* the `player-status` listener (lines 30–41) spreads the previous state
  and stores `event.payload.status` unchecked;
* `play` (lines 43–54) stores the command result, or on rejection spreads
  the previous state with `status: "error"` and `error: String(err)`;
* `stop`/`pause` (lines 56–72) store the result, rejection only logs;
* `setAudioDevice` (lines 74–80) and `setVolume` (lines 82–88) never
  touch the status state in either branch. -/
def hookStep (prev : PlayerStatus) : HookEvent → PlayerStatus
  | .statusEvent payload => { prev with status := payload }
  | .playOk result => result
  | .playErr e => { prev with status := "error", error := some (jsToString e) }
  | .stopOk result => result
  | .stopErr _ => prev
  | .pauseOk result => result
  | .pauseErr _ => prev
  | .setAudioDeviceDone _ _ => prev
  | .setVolumeDone _ _ => prev

/-- Membership in the five-value `PlayerStatus["status"]` enumeration. -/
def validStatus (s : String) : Bool :=
  s = "idle" || s = "loading" || s = "playing" || s = "paused" || s = "error"

/-- Statuses carried by an event: the payload string of a `player-status`
event, or the `status` field of a fulfilled command result. -/
def eventStatusValid : HookEvent → Bool
  | .statusEvent payload => validStatus payload
  | .playOk result => validStatus result.status
  | .stopOk result => validStatus result.status
  | .pauseOk result => validStatus result.status
  | _ => true

/-- `getAudioDevices` of usePlayer.ts (lines 90–97): returns the invoke
result, or the empty list when the invoke rejected.  Totality of this
Lean function reflects that the TS function catches and never rethrows. -/
def getAudioDevices (res : Except JsValue (List (String × String))) :
    List (String × String) :=
  match res with
  | .ok devices => devices
  | .error _ => []

/-- Modelled from the spec: the backend `set_audio_device` command handler
is not among the frontend sources; §4.6 states "an invalid `device_id`
falls back to the default device rather than failing the session". -/
def effectiveAudioDevice (available : List String) (deviceId : String) : String :=
  if available.contains deviceId then deviceId else "default"

/-- `handleSpeedChange` of `src/components/PlayerControls.tsx`
(lines 81–113), as the UI-visible speed it finally stores.  On a
successful `set_speed` the deferred read-back keeps the optimistic value
unless the effective speed differs by more than 0.01; on a rejected
`set_speed` the current speed is read back, defaulting to 1.0 if even
that read fails. -/
def handleSpeedChange (newSpeed : ℚ) (setSpeedRes : Except JsValue Unit)
    (getSpeedRes : Except JsValue ℚ) : ℚ :=
  match setSpeedRes with
  | .ok _ =>
    match getSpeedRes with
    | .ok actualSpeed =>
      if 1 / 100 < |actualSpeed - newSpeed| then actualSpeed else newSpeed
    | .error _ => newSpeed
  | .error _ =>
    match getSpeedRes with
    | .ok currentSpeed => currentSpeed
    | .error _ => 1

/-- JS `Math.round`: round half up, i.e. the floor of `x + 1/2`. -/
def jsRound (x : ℚ) : Int := ⌊x + 1 / 2⌋

/-- `setVolume` of usePlayer.ts (lines 82–88): the integer actually passed
to the `set_volume` command is `Math.round(volume)`. -/
def setVolume (volume : ℚ) : Int := jsRound volume

/-- Modelled from the spec: the backend `set_volume` command handler is
not among the frontend sources; §4.6 specifies the applied volume as a
"0–100 integer, rounded" and §8 that "`set_volume(150)` is accepted and
clamped to 100", i.e. out-of-range levels are clamped, not rejected. -/
def applyVolume (level : Int) : Int := max 0 (min level 100)

/-- Component state of `AudioDeviceSelector` (the variant with mute,
lines 74–103 of `src/components/AudioDeviceSelector.tsx`): selected
device id, volume slider value, and mute flag. -/
structure AudioPanelState where
  selected : String
  volume : ℚ
  mute : Bool
deriving DecidableEq

/-- `handleMuteToggle`: on a successful `set_mute` invoke the mute flag is
inverted; on a rejected invoke the state is left unchanged (the catch
branch only logs).  No branch touches `volume` or `selected`. -/
def handleMuteToggle (st : AudioPanelState) (invokeOk : Bool) : AudioPanelState :=
  if invokeOk then { st with mute := !st.mute } else st

/-- JS whitespace characters relevant to `String.prototype.trim`
(the ASCII subset: space, tab, line feed, carriage return, vertical tab,
form feed). -/
def isJsSpace (c : Char) : Bool :=
  c = ' ' || c = '\t' || c = '\n' || c = '\r' || c = '\x0b' || c = '\x0c'

/-- JS `url.trim()`: remove leading and trailing whitespace. -/
def jsTrim (s : List Char) : List Char :=
  ((s.dropWhile isJsSpace).reverse.dropWhile isJsSpace).reverse

/-- `handlePlay` of `src/App.tsx` (lines 12–16): issue `play(url.trim())`
only when `url.trim()` is truthy (non-empty); `none` models "no play
command issued". -/
def handlePlay (url : List Char) : Option (List Char) :=
  if jsTrim url = [] then none else some (jsTrim url)

/-- `Uint8ClampedArray` store clamp for a non-negative value. -/
def clamp8 (v : Nat) : Nat := min v 255

/-- One store into a `Uint8ClampedArray`: the value is clamped, and an
out-of-range store is discarded (`List.set` is the identity out of
range, matching JS typed arrays). -/
def tStore (a : List Nat) (i v : Nat) : List Nat := a.set i (clamp8 v)

/-- Body of the inner x-loop of the `preview-frame` listener
(`src/components/PreviewCanvas.tsx` lines 64–72): four stores into the
RGBA buffer for pixel `(x, y)`, with `rgbIdx = srcRowStart + x*3` and
`rgbaIdx = dstRowStart + x*4`, `srcRowStart = y*rowSizeRGB`,
`dstRowStart = (height-1-y)*rowSizeRGBA`. -/
def writePixel (w h : Nat) (rgb : List Nat) (y x : Nat) (a : List Nat) : List Nat :=
  let rgbIdx := y * (w * 3) + x * 3
  let rgbaIdx := (h - 1 - y) * (w * 4) + x * 4
  tStore (tStore (tStore (tStore a
    rgbaIdx (rgb.getD rgbIdx 0))
    (rgbaIdx + 1) (rgb.getD (rgbIdx + 1) 0))
    (rgbaIdx + 2) (rgb.getD (rgbIdx + 2) 0))
    (rgbaIdx + 3) 255

/-- The y-loop body (PreviewCanvas.tsx lines 59–73): one output row. -/
def writeRow (w h : Nat) (rgb : List Nat) (y : Nat) (a : List Nat) : List Nat :=
  (List.range w).foldl (fun acc x => writePixel w h rgb y x acc) a

/-- The full RGB→RGBA flip conversion of the `preview-frame` listener
(PreviewCanvas.tsx lines 54–73): a fresh `Uint8ClampedArray` of size
`width*height*4` (zero-initialised), filled row by row. -/
def rgbToRgbaFlip (w h : Nat) (rgb : List Nat) : List Nat :=
  (List.range h).foldl (fun acc y => writeRow w h rgb y acc)
    (List.replicate (w * h * 4) 0)

/-- Value the conversion stores for channel `c` of the pixel whose source
row is `ySrc` and column is `x` (channels 0–2 copy RGB, channel 3 is the
alpha constant 255). -/
def pixelVal (w : Nat) (rgb : List Nat) (ySrc x c : Nat) : Nat :=
  if c < 3 then clamp8 (rgb.getD (ySrc * (w * 3) + x * 3 + c) 0) else 255

/-- Payload of a `preview-frame` event (PreviewCanvas.tsx lines 5–9),
with `data` as the decoded byte list (`atob` + `charCodeAt`). -/
structure PreviewFramePayload where
  width : Nat
  height : Nat
  data : List Nat
deriving DecidableEq

/-- The image a handler invocation draws to the canvas. -/
structure DrawnImage where
  width : Nat
  height : Nat
  pixels : List Nat
deriving DecidableEq

/-- The `preview-frame` listener of PreviewCanvas.tsx (lines 37–78) as a
function of the component's `visible` prop and the event payload,
returning the image drawn via `putImageData`.  The listener is
registered once on mount (effect dependency list `[]`, lines 19–83) and
its body never consults `visible`: the component only hides the canvas
with CSS (`display: none`, line 102), keeping the listener alive. -/
def previewFrameListener : Bool → PreviewFramePayload → Option DrawnImage
  | _, p => some ⟨p.width, p.height, rgbToRgbaFlip p.width p.height p.data⟩

-- ════════════════════════════════════════════════════════════════════════════
-- Helper lemmas
-- ════════════════════════════════════════════════════════════════════════════

theorem setGetD_self (l : List Nat) (i v : Nat) (h : i < l.length) :
    (l.set i v).getD i 0 = v := by
  simp [List.getD_eq_getElem?_getD, List.getElem?_set_self h]

theorem setGetD_other (l : List Nat) (i j v : Nat) (h : i ≠ j) :
    (l.set i v).getD j 0 = l.getD j 0 := by
  simp [List.getD_eq_getElem?_getD, List.getElem?_set_ne h]

/-- Uniqueness of the row/offset decomposition `r * K + t` with `t < K`. -/
theorem rowDecomp_unique {K r1 t1 r2 t2 : Nat} (ht1 : t1 < K) (ht2 : t2 < K)
    (heq : r1 * K + t1 = r2 * K + t2) : r1 = r2 ∧ t1 = t2 := by
  have hK : 0 < K := by omega
  have d1 : (r1 * K + t1) / K = r1 := by
    rw [Nat.mul_comm r1 K, Nat.mul_add_div hK, Nat.div_eq_of_lt ht1, Nat.add_zero]
  have d2 : (r2 * K + t2) / K = r2 := by
    rw [Nat.mul_comm r2 K, Nat.mul_add_div hK, Nat.div_eq_of_lt ht2, Nat.add_zero]
  have hr : r1 = r2 := by rw [← d1, ← d2, heq]
  subst hr
  exact ⟨rfl, Nat.add_left_cancel heq⟩

/-- Every index a pixel write targets is inside the RGBA buffer. -/
theorem pixel_index_lt {w h y x c : Nat} (hy : y < h) (hx : x < w) (hc : c < 4) :
    (h - 1 - y) * (w * 4) + x * 4 + c < w * h * 4 := by
  have h2 : x * 4 + c < w * 4 := by omega
  have hR : w * h * 4 = h * (w * 4) := by ring
  rw [hR, Nat.add_assoc]
  have hy2 : h - 1 - y + 1 ≤ h := by omega
  calc (h - 1 - y) * (w * 4) + (x * 4 + c)
      < (h - 1 - y) * (w * 4) + w * 4 := Nat.add_lt_add_left h2 _
    _ = (h - 1 - y + 1) * (w * 4) := by ring
    _ ≤ h * (w * 4) := mul_le_mul_right' hy2 _

theorem length_writePixel (w h : Nat) (rgb : List Nat) (y x : Nat) (a : List Nat) :
    (writePixel w h rgb y x a).length = a.length := by
  simp [writePixel, tStore]

theorem length_foldl_writePixel (w h : Nat) (rgb : List Nat) (y : Nat)
    (xs : List Nat) : ∀ a : List Nat,
    (xs.foldl (fun acc x => writePixel w h rgb y x acc) a).length = a.length := by
  induction xs with
  | nil => intro a; rfl
  | cons x' tl ih =>
    intro a
    rw [List.foldl_cons, ih, length_writePixel]

theorem length_foldl_writeRow (w h : Nat) (rgb : List Nat)
    (ys : List Nat) : ∀ a : List Nat,
    (ys.foldl (fun acc y => writeRow w h rgb y acc) a).length = a.length := by
  induction ys with
  | nil => intro a; rfl
  | cons y' tl ih =>
    intro a
    rw [List.foldl_cons, ih]
    exact length_foldl_writePixel w h rgb y' (List.range w) a

theorem length_rgbToRgbaFlip (w h : Nat) (rgb : List Nat) :
    (rgbToRgbaFlip w h rgb).length = w * h * 4 := by
  unfold rgbToRgbaFlip
  rw [length_foldl_writeRow, List.length_replicate]

/-- Lookup after the four stores of one pixel write, on an explicit
quadruple of `List.set`s. -/
theorem quadGetD (a : List Nat) (B v0 v1 v2 v3 j : Nat) (hB : B + 3 < a.length) :
    ((((a.set B v0).set (B + 1) v1).set (B + 2) v2).set (B + 3) v3).getD j 0 =
      if j = B then v0 else if j = B + 1 then v1 else if j = B + 2 then v2
        else if j = B + 3 then v3 else a.getD j 0 := by
  by_cases h3 : j = B + 3
  · subst h3
    have hlt : B + 3 < (((a.set B v0).set (B + 1) v1).set (B + 2) v2).length := by
      simp only [List.length_set]; omega
    have e0 : ¬(B + 3 = B) := by omega
    have e1 : ¬(B + 3 = B + 1) := by omega
    have e2 : ¬(B + 3 = B + 2) := by omega
    have e3 : B + 3 = B + 3 := rfl
    rw [setGetD_self _ _ _ hlt, if_neg e0, if_neg e1, if_neg e2, if_pos e3]
  · by_cases h2 : j = B + 2
    · subst h2
      have hne3 : B + 3 ≠ B + 2 := by omega
      have hlt : B + 2 < ((a.set B v0).set (B + 1) v1).length := by
        simp only [List.length_set]; omega
      have e0 : ¬(B + 2 = B) := by omega
      have e1 : ¬(B + 2 = B + 1) := by omega
      have e2 : B + 2 = B + 2 := rfl
      rw [setGetD_other _ _ _ _ hne3, setGetD_self _ _ _ hlt,
        if_neg e0, if_neg e1, if_pos e2]
    · by_cases h1 : j = B + 1
      · subst h1
        have hne3 : B + 3 ≠ B + 1 := by omega
        have hne2 : B + 2 ≠ B + 1 := by omega
        have hlt : B + 1 < (a.set B v0).length := by
          simp only [List.length_set]; omega
        have e0 : ¬(B + 1 = B) := by omega
        have e1 : B + 1 = B + 1 := rfl
        rw [setGetD_other _ _ _ _ hne3, setGetD_other _ _ _ _ hne2,
          setGetD_self _ _ _ hlt, if_neg e0, if_pos e1]
      · by_cases h0 : j = B
        · subst h0
          have hne3 : j + 3 ≠ j := by omega
          have hne2 : j + 2 ≠ j := by omega
          have hne1 : j + 1 ≠ j := by omega
          have hlt : j < a.length := by omega
          have e0 : j = j := rfl
          rw [setGetD_other _ _ _ _ hne3, setGetD_other _ _ _ _ hne2,
            setGetD_other _ _ _ _ hne1, setGetD_self _ _ _ hlt, if_pos e0]
        · have hne3 : B + 3 ≠ j := fun heq => h3 heq.symm
          have hne2 : B + 2 ≠ j := fun heq => h2 heq.symm
          have hne1 : B + 1 ≠ j := fun heq => h1 heq.symm
          have hne0 : B ≠ j := fun heq => h0 heq.symm
          rw [setGetD_other _ _ _ _ hne3, setGetD_other _ _ _ _ hne2,
            setGetD_other _ _ _ _ hne1, setGetD_other _ _ _ _ hne0,
            if_neg h0, if_neg h1, if_neg h2, if_neg h3]

/-- A pixel write stores the four channel values at its four indices. -/
theorem writePixel_getD (w h : Nat) (rgb : List Nat) (y x c : Nat) (a : List Nat)
    (hlen : a.length = w * h * 4) (hy : y < h) (hx : x < w) (hc : c < 4) :
    (writePixel w h rgb y x a).getD ((h - 1 - y) * (w * 4) + x * 4 + c) 0 =
      pixelVal w rgb y x c := by
  have hB3 : (h - 1 - y) * (w * 4) + x * 4 + 3 < a.length := by
    rw [hlen]; exact pixel_index_lt hy hx (by omega)
  simp only [writePixel, tStore]
  rw [quadGetD a _ _ _ _ _ _ hB3]
  generalize (h - 1 - y) * (w * 4) + x * 4 = B
  interval_cases c
  · have e0 : B + 0 = B := by omega
    rw [if_pos e0]
    simp [pixelVal]
  · have e0 : ¬(B + 1 = B) := by omega
    have e1 : B + 1 = B + 1 := rfl
    rw [if_neg e0, if_pos e1]
    simp [pixelVal]
  · have e0 : ¬(B + 2 = B) := by omega
    have e1 : ¬(B + 2 = B + 1) := by omega
    have e2 : B + 2 = B + 2 := rfl
    rw [if_neg e0, if_neg e1, if_pos e2]
    simp [pixelVal]
  · have e0 : ¬(B + 3 = B) := by omega
    have e1 : ¬(B + 3 = B + 1) := by omega
    have e2 : ¬(B + 3 = B + 2) := by omega
    have e3 : B + 3 = B + 3 := rfl
    rw [if_neg e0, if_neg e1, if_neg e2, if_pos e3]
    simp [pixelVal, clamp8]

/-- A pixel write leaves every other index of the buffer unchanged. -/
theorem writePixel_getD_untouched (w h : Nat) (rgb : List Nat) (y x : Nat)
    (a : List Nat) (j : Nat) (hy : y < h) (hx : x < w)
    (hlen : a.length = w * h * 4)
    (hj : ∀ c, c < 4 → j ≠ (h - 1 - y) * (w * 4) + x * 4 + c) :
    (writePixel w h rgb y x a).getD j 0 = a.getD j 0 := by
  have h0 := hj 0 (by omega)
  have h1 := hj 1 (by omega)
  have h2 := hj 2 (by omega)
  have h3 := hj 3 (by omega)
  have hB3 : (h - 1 - y) * (w * 4) + x * 4 + 3 < a.length := by
    rw [hlen]; exact pixel_index_lt hy hx (by omega)
  simp only [writePixel, tStore]
  rw [quadGetD a _ _ _ _ _ _ hB3]
  revert h0 h1 h2 h3
  generalize (h - 1 - y) * (w * 4) + x * 4 = B
  intro h0 h1 h2 h3
  have e0 : ¬(j = B) := by omega
  have e1 : ¬(j = B + 1) := by omega
  have e2 : ¬(j = B + 2) := by omega
  have e3 : ¬(j = B + 3) := by omega
  rw [if_neg e0, if_neg e1, if_neg e2, if_neg e3]

/-- Fold form of `writePixel_getD_untouched` over a list of columns. -/
theorem foldl_writePixel_untouched (w h : Nat) (rgb : List Nat) (y : Nat)
    (hy : y < h) (xs : List Nat) : ∀ (a : List Nat), a.length = w * h * 4 →
    ∀ (j : Nat), (∀ x ∈ xs, x < w) →
    (∀ x ∈ xs, ∀ c, c < 4 → j ≠ (h - 1 - y) * (w * 4) + x * 4 + c) →
    (xs.foldl (fun acc x => writePixel w h rgb y x acc) a).getD j 0 =
      a.getD j 0 := by
  induction xs with
  | nil => intro a _ j _ _; rfl
  | cons x' tl ih =>
    intro a ha j hxs hj
    rw [List.foldl_cons,
      ih _ (by rw [length_writePixel]; exact ha) j
        (fun x hx => hxs x (List.mem_cons_of_mem _ hx))
        (fun x hx => hj x (List.mem_cons_of_mem _ hx)),
      writePixel_getD_untouched w h rgb y x' a j hy
        (hxs x' (List.mem_cons_self x' tl)) ha
        (hj x' (List.mem_cons_self x' tl))]

/-- A row write leaves every index outside its destination row unchanged. -/
theorem writeRow_getD_untouched (w h : Nat) (rgb : List Nat) (y : Nat)
    (hy : y < h) (a : List Nat) (ha : a.length = w * h * 4) (j : Nat)
    (hj : ∀ x, x < w → ∀ c, c < 4 → j ≠ (h - 1 - y) * (w * 4) + x * 4 + c) :
    (writeRow w h rgb y a).getD j 0 = a.getD j 0 :=
  foldl_writePixel_untouched w h rgb y hy (List.range w) a ha j
    (fun x hx => List.mem_range.mp hx)
    (fun x hx => hj x (List.mem_range.mp hx))

/-- After folding the first `n` columns of a row, every already-written
pixel of that row holds its channel values. -/
theorem foldl_writePixel_getD (w h : Nat) (rgb : List Nat) (y : Nat)
    (hy : y < h) : ∀ n, n ≤ w → ∀ a : List Nat, a.length = w * h * 4 →
    ∀ x, x < n → ∀ c, c < 4 →
    ((List.range n).foldl (fun acc x' => writePixel w h rgb y x' acc) a).getD
      ((h - 1 - y) * (w * 4) + x * 4 + c) 0 = pixelVal w rgb y x c := by
  intro n
  induction n with
  | zero => intro _ a _ x hx; omega
  | succ n ih =>
    intro hn a ha x hx c hc
    rw [List.range_succ, List.foldl_append, List.foldl_cons, List.foldl_nil]
    by_cases hxn : x = n
    · subst hxn
      exact writePixel_getD w h rgb y x c _
        (by rw [length_foldl_writePixel]; exact ha) hy (by omega) hc
    · have hne : ∀ c', c' < 4 →
          (h - 1 - y) * (w * 4) + x * 4 + c ≠ (h - 1 - y) * (w * 4) + n * 4 + c' := by
        intro c' hc' heq
        rw [Nat.add_assoc, Nat.add_assoc] at heq
        have := Nat.add_left_cancel heq
        omega
      exact (writePixel_getD_untouched w h rgb y n _ _ hy (by omega)
        (by rw [length_foldl_writePixel]; exact ha) hne).trans
        (ih (by omega) a ha x (by omega) c hc)

/-- A full row write stores all channel values of its destination row. -/
theorem writeRow_getD (w h : Nat) (rgb : List Nat) (y : Nat) (hy : y < h)
    (a : List Nat) (ha : a.length = w * h * 4) (x : Nat) (hx : x < w)
    (c : Nat) (hc : c < 4) :
    (writeRow w h rgb y a).getD ((h - 1 - y) * (w * 4) + x * 4 + c) 0 =
      pixelVal w rgb y x c :=
  foldl_writePixel_getD w h rgb y hy w (Nat.le_refl w) a ha x hx c hc

/-- After folding the first `m` rows, every already-written row holds its
flipped pixel values. -/
theorem foldl_writeRow_getD (w h : Nat) (rgb : List Nat) :
    ∀ m, m ≤ h → ∀ a : List Nat, a.length = w * h * 4 →
    ∀ y, y < m → ∀ x, x < w → ∀ c, c < 4 →
    ((List.range m).foldl (fun acc y' => writeRow w h rgb y' acc) a).getD
      ((h - 1 - y) * (w * 4) + x * 4 + c) 0 = pixelVal w rgb y x c := by
  intro m
  induction m with
  | zero => intro _ a _ y hy; omega
  | succ m ih =>
    intro hm a ha y hy x hx c hc
    rw [List.range_succ, List.foldl_append, List.foldl_cons, List.foldl_nil]
    by_cases hym : y = m
    · subst hym
      exact writeRow_getD w h rgb y (by omega) _
        (by rw [length_foldl_writeRow]; exact ha) x hx c hc
    · have hym2 : y < m := by omega
      have hne : ∀ x', x' < w → ∀ c', c' < 4 →
          (h - 1 - y) * (w * 4) + x * 4 + c ≠
            (h - 1 - m) * (w * 4) + x' * 4 + c' := by
        intro x' hx' c' hc' heq
        rw [Nat.add_assoc, Nat.add_assoc] at heq
        have ht : x * 4 + c < w * 4 := by omega
        have ht2 : x' * 4 + c' < w * 4 := by omega
        obtain ⟨hr, -⟩ := rowDecomp_unique ht ht2 heq
        have hyh : y < h := by omega
        have hmh : m < h := by omega
        omega
      exact (writeRow_getD_untouched w h rgb m (by omega) _
        (by rw [length_foldl_writeRow]; exact ha) _ hne).trans
        (ih (by omega) a ha y hym2 x hx c hc)

/-- Clamping is the identity on a buffer of bytes (and on the
out-of-range default 0). -/
theorem clamp8_getD_bytes (rgb : List Nat) (hbytes : ∀ b ∈ rgb, b ≤ 255)
    (i : Nat) : clamp8 (rgb.getD i 0) = rgb.getD i 0 := by
  by_cases hi : i < rgb.length
  · have hmem : rgb.getD i 0 ∈ rgb := by
      rw [List.getD_eq_getElem?_getD, List.getElem?_eq_getElem hi]
      exact List.getElem_mem hi
    exact Nat.min_eq_left (hbytes _ hmem)
  · rw [List.getD_eq_getElem?_getD, List.getElem?_eq_none (by omega)]
    simp [clamp8]

-- ════════════════════════════════════════════════════════════════════════════
-- Claim theorems
-- ════════════════════════════════════════════════════════════════════════════

-- ─── C1 ──────────────────────────────────────────────────────────────────────

/-- C1, counterexample: the claim asserts the stored status stays within
the five-value enumeration even for arbitrary event payload strings; but
the `player-status` listener stores the payload verbatim (unchecked cast),
so the payload "bogus" is stored as-is and is outside the enumeration. -/
theorem status_escapes_enum_on_bogus_payload :
    (hookStep initialStatus (.statusEvent "bogus")).status = "bogus" ∧
      validStatus (hookStep initialStatus (.statusEvent "bogus")).status = false := by
  constructor <;> rfl

/-- C1, amended: for every sequence of player-status events and command
results in which each carried status lies in the five-value enumeration
{idle, loading, playing, paused, error}, the stored status stays in the
enumeration (the `play` rejection branch stores the literal "error"); the
listener itself does not enforce this for arbitrary payload strings. -/
theorem status_stays_in_enum (evts : List HookEvent) (st : PlayerStatus)
    (hst : validStatus st.status = true)
    (hevts : ∀ e ∈ evts, eventStatusValid e = true) :
    validStatus (evts.foldl hookStep st).status = true := by
  induction evts generalizing st with
  | nil => exact hst
  | cons e rest ih =>
    refine ih (hookStep st e) ?_ (fun e' he' => hevts e' (List.mem_cons_of_mem _ he'))
    have he : eventStatusValid e = true := hevts e (List.mem_cons_self e rest)
    cases e with
    | statusEvent payload => exact he
    | playOk result => exact he
    | playErr _ => rfl
    | stopOk result => exact he
    | stopErr _ => exact hst
    | pauseOk result => exact he
    | pauseErr _ => exact hst
    | setAudioDeviceDone _ _ => exact hst
    | setVolumeDone _ _ => exact hst

/-- C1 witness: a concrete mixed event sequence keeps the status valid. -/
theorem status_stays_in_enum_witness :
    validStatus
      (([HookEvent.statusEvent "loading",
         HookEvent.playErr JsValue.undef,
         HookEvent.statusEvent "playing"].foldl hookStep initialStatus).status) = true :=
  status_stays_in_enum _ initialStatus (by decide)
    (by intro e he; fin_cases he <;> decide)

-- ─── C5 ──────────────────────────────────────────────────────────────────────

/-- C5, counterexample: the claim asserts a rejected `play` always yields
a non-empty error message; but when the rejection value is the empty
string, `String(err)` is empty, so the stored message is empty. -/
theorem play_rejection_message_can_be_empty :
    (hookStep initialStatus (.playErr (.strv ""))).status = "error" ∧
      (hookStep initialStatus (.playErr (.strv ""))).error = some "" := by
  constructor <;> rfl

/-- C5, amended: for every rejected `play` invocation, the resulting
status is "error" with the stringified failure as the message, and the
`spout_active` / `syphon_active` fields are unchanged from the prior
state; the message is non-empty exactly when the stringified failure is
(it can be empty only for a rejection whose string form is empty). -/
theorem play_rejection_sets_error_state (prev : PlayerStatus) (e : JsValue) :
    (hookStep prev (.playErr e)).status = "error" ∧
      (hookStep prev (.playErr e)).error = some (jsToString e) ∧
      (hookStep prev (.playErr e)).spout_active = prev.spout_active ∧
      (hookStep prev (.playErr e)).syphon_active = prev.syphon_active := by
  exact ⟨rfl, rfl, rfl, rfl⟩

-- ─── C8 ──────────────────────────────────────────────────────────────────────

/-- C8: `setAudioDevice` absorbs any failure of its invoke (the catch
branch only logs), so the hook state — in particular the playback status —
is unchanged for every device id and every outcome; and, per the
spec-modelled backend handler, an invalid device id falls back to the
default device rather than producing an error. -/
theorem setAudioDevice_never_changes_status :
    (∀ (st : PlayerStatus) (deviceId : String) (ok : Bool),
        hookStep st (.setAudioDeviceDone deviceId ok) = st) ∧
      (∀ (available : List String) (deviceId : String),
        available.contains deviceId = false →
          effectiveAudioDevice available deviceId = "default") := by
  refine ⟨fun st deviceId ok => rfl, fun available deviceId h => ?_⟩
  simp only [effectiveAudioDevice, h]
  simp

/-- C8 witness: a concrete failed selection of an unknown device leaves
the status untouched and the effective device is the default. -/
theorem setAudioDevice_never_changes_status_witness :
    hookStep initialStatus (.setAudioDeviceDone "ghost" false) = initialStatus ∧
      effectiveAudioDevice ["spk1", "spk2"] "ghost" = "default" :=
  ⟨setAudioDevice_never_changes_status.1 initialStatus "ghost" false,
   setAudioDevice_never_changes_status.2 ["spk1", "spk2"] "ghost" (by decide)⟩

-- ─── C9 ──────────────────────────────────────────────────────────────────────

/-- C9: `getAudioDevices` is total over both outcomes of the underlying
invoke — it returns the device list on success and the empty list on
failure, never propagating the error. -/
theorem getAudioDevices_total :
    (∀ e : JsValue, getAudioDevices (.error e) = []) ∧
      (∀ devices : List (String × String), getAudioDevices (.ok devices) = devices) :=
  ⟨fun _ => rfl, fun _ => rfl⟩

-- ─── C3 ──────────────────────────────────────────────────────────────────────

/-- C3: whenever the read-back `get_speed` returns the engine's effective
speed, the stored speed ends within 0.01 of it, and if the effective
speed differs from the request by more than 0.01 the stored speed is
exactly the effective value. -/
theorem handleSpeedChange_tracks_effective (newSpeed actualSpeed : ℚ)
    (setSpeedRes : Except JsValue Unit) :
    |handleSpeedChange newSpeed setSpeedRes (.ok actualSpeed) - actualSpeed| ≤ 1 / 100 ∧
      (1 / 100 < |actualSpeed - newSpeed| →
        handleSpeedChange newSpeed setSpeedRes (.ok actualSpeed) = actualSpeed) := by
  cases setSpeedRes with
  | ok u =>
    simp only [handleSpeedChange]
    by_cases h : 1 / 100 < |actualSpeed - newSpeed|
    · rw [if_pos h]
      exact ⟨by rw [sub_self, abs_zero]; norm_num, fun _ => rfl⟩
    · rw [if_neg h]
      exact ⟨by rw [abs_sub_comm]; exact le_of_not_lt h, fun h2 => absurd h2 h⟩
  | error e =>
    refine ⟨?_, fun _ => rfl⟩
    simp only [handleSpeedChange]
    rw [sub_self, abs_zero]
    norm_num

/-- C3 witness: requesting 8x when the engine clamps to 4x stores 4x. -/
theorem handleSpeedChange_tracks_effective_witness :
    handleSpeedChange 8 (.ok ()) (.ok 4) = 4 :=
  (handleSpeedChange_tracks_effective 8 4 (.ok ())).2 (by norm_num)

-- ─── C6 ──────────────────────────────────────────────────────────────────────

/-- C6: for every numeric volume request, the volume applied to the audio
path is an integer between 0 and 100, obtained by rounding the request to
the nearest integer (within 1/2) and clamping; in particular a request of
150 is accepted and applied as 100. -/
theorem volume_rounded_and_clamped (v : ℚ) :
    (0 ≤ applyVolume (setVolume v) ∧ applyVolume (setVolume v) ≤ 100) ∧
      |((setVolume v : Int) : ℚ) - v| ≤ 1 / 2 ∧
      applyVolume (setVolume 150) = 100 := by
  refine ⟨⟨?_, ?_⟩, ?_, ?_⟩
  · simp only [applyVolume]; omega
  · simp only [applyVolume]; omega
  · have h1 : ((⌊v + 1 / 2⌋ : Int) : ℚ) ≤ v + 1 / 2 := Int.floor_le _
    have h2 : v + 1 / 2 < (⌊v + 1 / 2⌋ : Int) + 1 := Int.lt_floor_add_one _
    rw [abs_le]
    constructor <;> simp only [setVolume, jsRound] <;> linarith
  · have h150 : setVolume 150 = 150 := by
      simp only [setVolume, jsRound]
      rw [Int.floor_eq_iff]
      constructor <;> norm_num
    rw [h150]
    rfl

-- ─── C7 ──────────────────────────────────────────────────────────────────────

/-- C7: any sequence of mute toggles (with arbitrary invoke outcomes)
leaves the stored volume — and the selected device — unchanged, so
unmuting restores the previously set volume level rather than a default. -/
theorem muteToggle_preserves_volume (st : AudioPanelState) (outcomes : List Bool) :
    (outcomes.foldl handleMuteToggle st).volume = st.volume ∧
      (outcomes.foldl handleMuteToggle st).selected = st.selected := by
  induction outcomes generalizing st with
  | nil => exact ⟨rfl, rfl⟩
  | cons b rest ih =>
    have hstep : (handleMuteToggle st b).volume = st.volume ∧
        (handleMuteToggle st b).selected = st.selected := by
      cases b <;> exact ⟨rfl, rfl⟩
    rw [List.foldl_cons]
    exact ⟨(ih (handleMuteToggle st b)).1.trans hstep.1,
      (ih (handleMuteToggle st b)).2.trans hstep.2⟩

-- ─── C10 ─────────────────────────────────────────────────────────────────────

/-- C10: a whitespace-only (or empty) URL issues no play command; any
other URL issues exactly one play command with the trimmed URL, and the
trim really is removal of a whitespace prefix and a whitespace suffix. -/
theorem handlePlay_trims_url (url : List Char) :
    (jsTrim url = [] → handlePlay url = none) ∧
      (jsTrim url ≠ [] → handlePlay url = some (jsTrim url)) ∧
      ∃ ws1 ws2, url = ws1 ++ jsTrim url ++ ws2 ∧
        (∀ c ∈ ws1, isJsSpace c = true) ∧ (∀ c ∈ ws2, isJsSpace c = true) := by
  refine ⟨fun h => by simp [handlePlay, h], fun h => by simp [handlePlay, h], ?_⟩
  obtain ⟨ws1, h1, hws1⟩ : ∃ ws1, url = ws1 ++ url.dropWhile isJsSpace ∧
      ∀ c ∈ ws1, isJsSpace c = true :=
    ⟨url.takeWhile isJsSpace, (List.takeWhile_append_dropWhile _ _).symm,
      fun _ hc => List.mem_takeWhile_imp hc⟩
  obtain ⟨ws2r, h2, hws2⟩ : ∃ ws2r, (url.dropWhile isJsSpace).reverse =
      ws2r ++ (url.dropWhile isJsSpace).reverse.dropWhile isJsSpace ∧
      ∀ c ∈ ws2r, isJsSpace c = true :=
    ⟨(url.dropWhile isJsSpace).reverse.takeWhile isJsSpace,
      (List.takeWhile_append_dropWhile _ _).symm,
      fun _ hc => List.mem_takeWhile_imp hc⟩
  have hd : url.dropWhile isJsSpace = jsTrim url ++ ws2r.reverse := by
    conv_lhs => rw [← List.reverse_reverse (url.dropWhile isJsSpace), h2,
      List.reverse_append]
    rfl
  refine ⟨ws1, ws2r.reverse, ?_, hws1, fun c hc => hws2 c (List.mem_reverse.mp hc)⟩
  calc url = ws1 ++ url.dropWhile isJsSpace := h1
    _ = ws1 ++ (jsTrim url ++ ws2r.reverse) := by rw [hd]
    _ = ws1 ++ jsTrim url ++ ws2r.reverse := (List.append_assoc _ _ _).symm

/-- C10 witness: a URL with surrounding spaces issues a play command with
the trimmed URL, and a whitespace-only URL issues none. -/
theorem handlePlay_trims_url_witness :
    handlePlay [' ', 'h', 'i', ' '] = some ['h', 'i'] ∧
      handlePlay [' ', '\t'] = none :=
  ⟨(handlePlay_trims_url [' ', 'h', 'i', ' ']).2.1 (by decide),
   (handlePlay_trims_url [' ', '\t']).1 (by decide)⟩

-- ─── C2 ──────────────────────────────────────────────────────────────────────

/-- C2: for width `w > 0`, height `h > 0` and a decoded RGB byte buffer of
length `w*h*3`, the preview-frame conversion yields an RGBA buffer of
length `w*h*4` in which the pixel at column `x`, row `y` equals the input
RGB pixel at column `x`, row `h-1-y` (vertical flip), with alpha 255. -/
theorem preview_flip_correct (w h : Nat) (rgb : List Nat)
    (hw : 0 < w) (hh : 0 < h) (hlen : rgb.length = w * h * 3)
    (hbytes : ∀ b ∈ rgb, b ≤ 255) (x y : Nat) (hx : x < w) (hy : y < h) :
    (rgbToRgbaFlip w h rgb).length = w * h * 4 ∧
      (∀ c, c < 3 →
        (rgbToRgbaFlip w h rgb).getD (y * (w * 4) + x * 4 + c) 0 =
          rgb.getD ((h - 1 - y) * (w * 3) + x * 3 + c) 0) ∧
      (rgbToRgbaFlip w h rgb).getD (y * (w * 4) + x * 4 + 3) 0 = 255 := by
  have hsrc : h - 1 - (h - 1 - y) = y := by omega
  have hflip : ∀ c, c < 4 →
      (rgbToRgbaFlip w h rgb).getD (y * (w * 4) + x * 4 + c) 0 =
        pixelVal w rgb (h - 1 - y) x c := by
    intro c hc
    have hy2 : h - 1 - y < h := by omega
    have := foldl_writeRow_getD w h rgb h (Nat.le_refl h)
      (List.replicate (w * h * 4) 0) (by rw [List.length_replicate])
      (h - 1 - y) hy2 x hx c hc
    rw [hsrc] at this
    exact this
  refine ⟨length_rgbToRgbaFlip w h rgb, fun c hc => ?_, ?_⟩
  · rw [hflip c (by omega)]
    simp only [pixelVal, if_pos hc]
    exact clamp8_getD_bytes rgb hbytes _
  · rw [hflip 3 (by omega)]
    rfl

/-- C2 witness: on the concrete 2×2 frame `[1..12]`, output row 0 column 1
channel 0 is byte 9 of the input (input row 1, column 1, channel R). -/
theorem preview_flip_correct_witness :
    (rgbToRgbaFlip 2 2 [1, 2, 3, 4, 5, 6, 7, 8, 9, 10, 11, 12]).getD
      (0 * (2 * 4) + 1 * 4 + 0) 0 = 10 :=
  ((preview_flip_correct 2 2 [1, 2, 3, 4, 5, 6, 7, 8, 9, 10, 11, 12]
      (by decide) (by decide) (by decide) (by decide) 1 0
      (by decide) (by decide)).2.1 0 (by decide)).trans (by decide)

-- ─── C4 ──────────────────────────────────────────────────────────────────────

/-- C4, counterexample: the claim asserts that while the preview is hidden
the handler skips decoding, conversion and drawing entirely; but the
listener ignores `visible`, so a frame arriving with `visible = false` is
still fully converted and drawn. -/
theorem preview_hidden_still_converts :
    previewFrameListener false ⟨1, 1, [9, 9, 9]⟩ =
      some ⟨1, 1, [9, 9, 9, 255]⟩ := by
  decide

/-- C4, amended: the preview-frame handler performs the full decode,
RGB→RGBA conversion and draw for every arriving event regardless of the
`visible` prop (its result is independent of visibility and always a
drawn image); hiding the preview only hides the canvas via CSS, so any
suppression of preview work while hidden must come from the emitting
side, not this handler. -/
theorem preview_listener_ignores_visibility (v : Bool) (p : PreviewFramePayload) :
    previewFrameListener v p = previewFrameListener true p ∧
      (previewFrameListener v p).isSome = true := by
  cases v <;> exact ⟨rfl, rfl⟩
